import Mathlib

/-!
Shallow embedding of `file_sync` (src/src/lib.rs), a container keeping an
in-memory value `data : T` synchronized with a backing JSON file.

Modelling choices:
* A file's bytes are a `List Nat`; an open handle is content plus a cursor
  (`FileState`), since the Rust code writes through a persistent `File`
  handle whose cursor matters (`clear_file` truncates then seeks to 0).
* The filesystem is a partial map from paths to byte lists (`FS P`);
  `Path::exists` is `(fs fp).isSome`.
* serde_json is the external collaborator: a `Codec T` supplies
  `encode : Bool → T → Except Unit (List Nat)` (the Bool is the `pretty`
  flag choosing `to_writer_pretty` vs `to_writer`, encoding may fail) and
  `decode : List Nat → Option T` (`from_reader`, failing on malformed input).
* The fallible OS calls inside `clear_file` (`set_len`, `seek`) and the
  `File::open` in `new` are given fault switches (`Faults`, `openFails`) so
  the error paths of the Rust code are reachable states of the model.
* Rust methods taking `&mut self` and returning `Result` are modelled as
  functions returning the post-state together with an optional error, since
  on `Err` the receiver keeps its partial mutations (the documented desync).
-/

/-- Abstract serde_json capability: `encode pretty v` is
`to_writer_pretty`/`to_writer`, `decode` is `from_reader` on full contents. -/
structure Codec (T : Type) where
  encode : Bool → T → Except Unit (List Nat)
  decode : List Nat → Option T

/-- An open file handle: its on-disk bytes and the cursor position. -/
structure FileState where
  content : List Nat
  cursor : Nat
deriving DecidableEq

/-- Fault switches for the two fallible OS calls of `clear_file`. -/
structure Faults where
  setLenFails : Bool
  seekFails : Bool
deriving DecidableEq

/-- Mirrors the Rust `ClearFileError` enum (src/src/lib.rs lines 45-51). -/
inductive ClearFileError where
  | SetLenError : ClearFileError
  | SeekError : ClearFileError
deriving DecidableEq

/-- Mirrors the Rust `FileSyncError<'a>` enum (src/src/lib.rs lines 33-43).
The path borrowed by `FileAlreadyExists` has type `P`. -/
inductive FileSyncError (P : Type) where
  | FileAlreadyExists : P → FileSyncError P
  | IoError : FileSyncError P
  | SerdeJsonError : FileSyncError P
  | ClearFileError : ClearFileError → FileSyncError P
deriving DecidableEq

/-- Mirrors `struct FileSync<T> { data, file, pretty }` (lines 22-31). -/
structure FileSync (T : Type) where
  data : T
  file : FileState
  pretty : Bool
deriving DecidableEq

/-- The filesystem: a partial map from paths to file contents. -/
def FS (P : Type) : Type := P → Option (List Nat)

/-- Creating/overwriting the file at path `p` with bytes `b`. -/
def fsUpdate {P : Type} [DecidableEq P] (fs : FS P) (p : P) (b : List Nat) :
    FS P :=
  fun q => if q = p then some b else fs q

/-- Writing `bytes` through a handle at its cursor: bytes before the cursor
are kept, the written region is replaced, bytes past it survive, and the
cursor advances past what was written. -/
def writeAt (f : FileState) (bytes : List Nat) : FileState :=
  { content := f.content.take f.cursor ++ bytes
      ++ f.content.drop (f.cursor + bytes.length),
    cursor := f.cursor + bytes.length }

namespace FileSync

variable {T P : Type} [DecidableEq P]

/-- Mirrors `FileSync::write` (lines 168-175): encode `value` per `pretty`
into the handle; on encode failure the handle is untouched. -/
def write (c : Codec T) (file : FileState) (value : T) (pretty : Bool) :
    Except Unit FileState :=
  match c.encode pretty value with
  | Except.error e => Except.error e
  | Except.ok bytes => Except.ok (writeAt file bytes)

/-- Mirrors `FileSync::new` (lines 68-81): existence check first, then open
with create+truncate (content `[]`, cursor 0), then `write`. Returns the
result together with the filesystem after the call. -/
def new (c : Codec T) (openFails : Bool) (fs : FS P) (fp : P) (data : T)
    (pretty : Bool) : Except (FileSyncError P) (FileSync T) × FS P :=
  if (fs fp).isSome then
    (Except.error (FileSyncError.FileAlreadyExists fp), fs)
  else if openFails then
    (Except.error FileSyncError.IoError, fs)
  else
    match write c { content := [], cursor := 0 } data pretty with
    | Except.error _ =>
        (Except.error FileSyncError.SerdeJsonError, fsUpdate fs fp [])
    | Except.ok file =>
        (Except.ok { data := data, file := file, pretty := pretty },
          fsUpdate fs fp file.content)

/-- Mirrors `FileSync::load` (lines 92-96): open read+write (IO error when
the path is absent), `from_reader` on the full contents (cursor ends at
EOF), `pretty` only stored for future writes. The filesystem is returned
unchanged. -/
def load (c : Codec T) (fs : FS P) (fp : P) (pretty : Bool) :
    Except (FileSyncError P) (FileSync T) × FS P :=
  match fs fp with
  | none => (Except.error FileSyncError.IoError, fs)
  | some bytes =>
    match c.decode bytes with
    | none => (Except.error FileSyncError.SerdeJsonError, fs)
    | some data =>
        (Except.ok ⟨data, ⟨bytes, bytes.length⟩, pretty⟩, fs)

/-- Mirrors `FileSync::load_or_new` (lines 109-115): dispatch on existence. -/
def load_or_new (c : Codec T) (openFails : Bool) (fs : FS P) (fp : P)
    (data : T) (pretty : Bool) :
    Except (FileSyncError P) (FileSync T) × FS P :=
  if (fs fp).isSome then load c fs fp pretty
  else new c openFails fs fp data pretty

/-- Mirrors `FileSync::clear_file` (lines 122-129): `set_len(0)` then
`seek(Start(0))`, each fallible; on error the partial mutation of the
handle is kept (as through `&mut self`). -/
def clear_file (fl : Faults) (f : FileState) :
    FileState × Option ClearFileError :=
  if fl.setLenFails then (f, some ClearFileError.SetLenError)
  else
    let f2 : FileState := { content := [], cursor := f.cursor }
    if fl.seekFails then (f2, some ClearFileError.SeekError)
    else ({ content := [], cursor := 0 }, none)

/-- Mirrors `FileSync::set` (lines 137-142): clear the file, write the new
value, and only then replace `data`. The post-state is returned even on
error, since `&mut self` keeps partial mutations. -/
def set (c : Codec T) (fl : Faults) (s : FileSync T) (data : T) :
    FileSync T × Option (FileSyncError P) :=
  match clear_file fl s.file with
  | (file1, some e) =>
      ({ s with file := file1 }, some (FileSyncError.ClearFileError e))
  | (file1, none) =>
    match write c file1 data s.pretty with
    | Except.error _ =>
        ({ s with file := file1 }, some FileSyncError.SerdeJsonError)
    | Except.ok file2 =>
        ({ data := data, file := file2, pretty := s.pretty }, none)

/-- Mirrors `FileSync::get` (lines 145-147). -/
def get (s : FileSync T) : T :=
  s.data

/-- Mirrors `FileSync::modify` (lines 155-163): the mutator runs on `data`
first, then the file is cleared and rewritten from the mutated value. -/
def modify (c : Codec T) (fl : Faults) (s : FileSync T) (f : T → T) :
    FileSync T × Option (FileSyncError P) :=
  let s1 : FileSync T := { s with data := f s.data }
  match clear_file fl s1.file with
  | (file1, some e) =>
      ({ s1 with file := file1 }, some (FileSyncError.ClearFileError e))
  | (file1, none) =>
    match write c file1 s1.data s1.pretty with
    | Except.error _ =>
        ({ s1 with file := file1 }, some FileSyncError.SerdeJsonError)
    | Except.ok file2 =>
        ({ s1 with file := file2 }, none)

/-- Mirrors `impl Deref for FileSync` (lines 178-186): defined via `get`. -/
def deref (s : FileSync T) : T :=
  get s

/-- Mirrors `impl AsRef<T> for FileSync` (lines 188-195): via `get`. -/
def as_ref (s : FileSync T) : T :=
  get s

end FileSync

/-- The steady-state invariant: the file's full contents deserialize to a
value equal to `data`. -/
def Synced {T : Type} (c : Codec T) (s : FileSync T) : Prop :=
  c.decode s.file.content = some s.data

/-- The serialization collaborator contract: whatever `encode` produces,
`decode` maps back to the original value, in either pretty mode. -/
def RoundTrip {T : Type} (c : Codec T) : Prop :=
  ∀ pr v b, c.encode pr v = Except.ok b → c.decode b = some v

/-- Concrete codec on `Nat` used by witnesses: the first byte records the
pretty flag, the second the value. -/
def natCodec : Codec Nat where
  encode := fun pr n => Except.ok [if pr then 1 else 0, n]
  decode := fun l =>
    match l with
    | [_, n] => some n
    | _ => none

theorem natCodec_roundtrip : RoundTrip natCodec := by
  intro pr v b h
  cases pr <;> simp [natCodec] at h <;> simp [natCodec, ← h]

/-- Concrete codec on `Nat` whose encoder always fails but whose decoder
accepts the empty file, used to witness serialization-failure paths. -/
def failCodec : Codec Nat where
  encode := fun _ _ => Except.error ()
  decode := fun l =>
    match l with
    | [] => some 0
    | _ => none

section Helpers

variable {T P : Type} [DecidableEq P]

/-- Anatomy of a successful `new`: the path was fresh, the open succeeded,
the value encoded to some bytes, and those bytes are both the handle's
content and the on-disk file. -/
theorem new_ok_elim (c : Codec T) (openF : Bool) (fs : FS P) (fp : P)
    (v : T) (pr : Bool) (s : FileSync T) (fs₂ : FS P)
    (h : FileSync.new c openF fs fp v pr = (Except.ok s, fs₂)) :
    ∃ b, c.encode pr v = Except.ok b ∧ s.data = v ∧ s.pretty = pr ∧
      s.file.content = b ∧ fs₂ = fsUpdate fs fp b ∧ fs fp = none := by
  unfold FileSync.new at h
  by_cases he : (fs fp).isSome
  · simp [he] at h
  · cases openF
    · rcases henc : c.encode pr v with e | b
      · simp [he, FileSync.write, henc] at h
      · simp [he, FileSync.write, henc, writeAt] at h
        refine ⟨b, rfl, ?_, ?_, ?_, ?_, ?_⟩ <;>
          simp [← h.1, h.2, Option.isSome_iff_exists] at he ⊢ <;>
          cases hfp : fs fp <;> simp_all
    · simp [he] at h

/-- Anatomy of a successful `load`: the path held bytes that decode to the
loaded value, and the filesystem is unchanged. -/
theorem load_ok_elim (c : Codec T) (fs : FS P) (fp : P) (pr : Bool)
    (s : FileSync T) (fs₂ : FS P)
    (h : FileSync.load c fs fp pr = (Except.ok s, fs₂)) :
    fs fp = some s.file.content ∧ c.decode s.file.content = some s.data ∧
      s.pretty = pr ∧ fs₂ = fs := by
  unfold FileSync.load at h
  rcases hfp : fs fp with _ | bytes
  · simp [hfp] at h
  · rcases hdec : c.decode bytes with _ | data
    · simp [hfp, hdec] at h
    · simp [hfp, hdec] at h
      simp [← h.1, h.2, hdec]

/-- Anatomy of a successful `set`: both clear faults were off, the new value
encoded to some bytes, and the post-state holds the new value with the file
containing exactly those bytes. -/
theorem set_ok_elim (c : Codec T) (fl : Faults) (s : FileSync T) (v : T)
    (s₂ : FileSync T)
    (h : FileSync.set (P := P) c fl s v = (s₂, none)) :
    fl.setLenFails = false ∧ fl.seekFails = false ∧
      ∃ b, c.encode s.pretty v = Except.ok b ∧ s₂.data = v ∧
        s₂.pretty = s.pretty ∧ s₂.file.content = b := by
  unfold FileSync.set FileSync.clear_file at h
  rcases fl with ⟨sl, sk⟩
  cases sl
  · cases sk
    · rcases henc : c.encode s.pretty v with e | b
      · simp [FileSync.write, henc] at h
      · simp [FileSync.write, henc, writeAt] at h
        exact ⟨rfl, rfl, b, rfl, by simp [← h], by simp [← h], by simp [← h]⟩
    · simp at h
  · simp at h

/-- Anatomy of a successful `modify`: both clear faults were off, the
mutated value encoded to some bytes, and the post-state holds the mutated
value with the file containing exactly those bytes. -/
theorem modify_ok_elim (c : Codec T) (fl : Faults) (s : FileSync T)
    (f : T → T) (s₂ : FileSync T)
    (h : FileSync.modify (P := P) c fl s f = (s₂, none)) :
    fl.setLenFails = false ∧ fl.seekFails = false ∧
      ∃ b, c.encode s.pretty (f s.data) = Except.ok b ∧
        s₂.data = f s.data ∧ s₂.pretty = s.pretty ∧ s₂.file.content = b := by
  unfold FileSync.modify FileSync.clear_file at h
  rcases fl with ⟨sl, sk⟩
  cases sl
  · cases sk
    · rcases henc : c.encode s.pretty (f s.data) with e | b
      · simp [FileSync.write, henc] at h
      · simp [FileSync.write, henc, writeAt] at h
        exact ⟨rfl, rfl, b, rfl, by simp [← h], by simp [← h], by simp [← h]⟩
    · simp at h
  · simp at h

end Helpers

section Claims

variable {T P : Type} [DecidableEq P]

/-- Claim C1: for every value type and every public operation (new, load,
load_or_new, set, modify) that returns successfully, afterwards the full
contents of the backing file deserialize to a value equal to the in-memory
`data`, and the file holds exactly the bytes of that serialized form — no
trailing bytes remain, even when the new serialized form is shorter than
the previous file contents. -/
theorem C1_steady_state_invariant (c : Codec T) (hrt : RoundTrip c) :
    (∀ (openF : Bool) (fs : FS P) (fp : P) (v : T) (pr : Bool)
        (s : FileSync T) (fs₂ : FS P),
      FileSync.new c openF fs fp v pr = (Except.ok s, fs₂) →
        Synced c s ∧ ∃ b, c.encode s.pretty s.data = Except.ok b ∧
          s.file.content = b) ∧
    (∀ (fs : FS P) (fp : P) (pr : Bool) (s : FileSync T) (fs₂ : FS P),
      FileSync.load c fs fp pr = (Except.ok s, fs₂) → Synced c s) ∧
    (∀ (openF : Bool) (fs : FS P) (fp : P) (v : T) (pr : Bool)
        (s : FileSync T) (fs₂ : FS P),
      FileSync.load_or_new c openF fs fp v pr = (Except.ok s, fs₂) →
        Synced c s) ∧
    (∀ (fl : Faults) (s : FileSync T) (v : T) (s₂ : FileSync T),
      FileSync.set (P := P) c fl s v = (s₂, none) →
        Synced c s₂ ∧ ∃ b, c.encode s₂.pretty s₂.data = Except.ok b ∧
          s₂.file.content = b) ∧
    (∀ (fl : Faults) (s : FileSync T) (f : T → T) (s₂ : FileSync T),
      FileSync.modify (P := P) c fl s f = (s₂, none) →
        Synced c s₂ ∧ ∃ b, c.encode s₂.pretty s₂.data = Except.ok b ∧
          s₂.file.content = b) := by
  refine ⟨?_, ?_, ?_, ?_, ?_⟩
  · intro openF fs fp v pr s fs₂ h
    obtain ⟨b, henc, hdata, hpr, hcontent, -, -⟩ :=
      new_ok_elim c openF fs fp v pr s fs₂ h
    refine ⟨?_, b, ?_, hcontent⟩
    · unfold Synced
      rw [hcontent, hdata]
      exact hrt pr v b henc
    · rw [hpr, hdata]
      exact henc
  · intro fs fp pr s fs₂ h
    exact (load_ok_elim c fs fp pr s fs₂ h).2.1
  · intro openF fs fp v pr s fs₂ h
    unfold FileSync.load_or_new at h
    by_cases he : (fs fp).isSome
    · rw [if_pos he] at h
      exact (load_ok_elim c fs fp pr s fs₂ h).2.1
    · rw [if_neg he] at h
      obtain ⟨b, henc, hdata, hpr, hcontent, -, -⟩ :=
        new_ok_elim c openF fs fp v pr s fs₂ h
      unfold Synced
      rw [hcontent, hdata]
      exact hrt pr v b henc
  · intro fl s v s₂ h
    obtain ⟨-, -, b, henc, hdata, hpr, hcontent⟩ :=
      set_ok_elim c fl s v s₂ h
    refine ⟨?_, b, ?_, hcontent⟩
    · unfold Synced
      rw [hcontent, hdata]
      exact hrt s.pretty v b henc
    · rw [hpr, hdata]
      exact henc
  · intro fl s f s₂ h
    obtain ⟨-, -, b, henc, hdata, hpr, hcontent⟩ :=
      modify_ok_elim c fl s f s₂ h
    refine ⟨?_, b, ?_, hcontent⟩
    · unfold Synced
      rw [hcontent, hdata]
      exact hrt s.pretty (f s.data) b henc
    · rw [hpr, hdata]
      exact henc

/-- Witness for C1: a concrete successful `set` over `natCodec` lands in a
state whose file contents decode back to the stored value. -/
theorem C1_steady_state_invariant_witness :
    Synced natCodec ⟨7, ⟨[0, 7], 2⟩, false⟩ := by
  have h := (C1_steady_state_invariant (P := Nat) natCodec
      natCodec_roundtrip).2.2.2.1 ⟨false, false⟩ ⟨5, ⟨[0, 5], 2⟩, false⟩ 7
      ⟨7, ⟨[0, 7], 2⟩, false⟩ (by decide)
  exact h.1

end Claims

section ClaimsTwo

variable {T P : Type} [DecidableEq P]

/-- Claim C2: for every serializable value v, fresh (non-existing) path p,
and either pretty flag, a successful `new(p, v, pretty)` yields an object
whose `get()` equals v, and a subsequent `load(p, pretty')` over the file
written by that `new` succeeds with an object whose `get()` also equals v. -/
theorem C2_new_then_load_roundtrip (c : Codec T) (hrt : RoundTrip c)
    (openF : Bool) (fs : FS P) (fp : P) (v : T) (pr pr' : Bool)
    (s : FileSync T) (fs₂ : FS P) (hfresh : fs fp = none)
    (h : FileSync.new c openF fs fp v pr = (Except.ok s, fs₂)) :
    FileSync.get s = v ∧
      ∃ s₂, (FileSync.load c fs₂ fp pr').1 = Except.ok s₂ ∧
        FileSync.get s₂ = v := by
  obtain ⟨b, henc, hdata, hpr, hcontent, hfs₂, -⟩ :=
    new_ok_elim c openF fs fp v pr s fs₂ h
  constructor
  · exact hdata
  · refine ⟨⟨v, ⟨b, b.length⟩, pr'⟩, ?_, rfl⟩
    subst hfs₂
    simp [FileSync.load, fsUpdate, hrt pr v b henc]

/-- Witness for C2: creating `[0, 5]` at path 0 on an empty filesystem and
reloading it (with the other pretty flag) both observe the value 5. -/
theorem C2_new_then_load_roundtrip_witness :
    FileSync.get (⟨5, ⟨[0, 5], 2⟩, false⟩ : FileSync Nat) = 5 ∧
      ∃ s₂, (FileSync.load natCodec
          (fsUpdate (fun _ => none) 0 [0, 5]) 0 true).1 = Except.ok s₂ ∧
        FileSync.get s₂ = 5 :=
  C2_new_then_load_roundtrip natCodec natCodec_roundtrip false
    (fun _ => none) 0 5 false true ⟨5, ⟨[0, 5], 2⟩, false⟩
    (fsUpdate (fun _ => none) 0 [0, 5]) rfl rfl

/-- Claim C3: `set(v)` replaces the in-memory `data` with v only if the
write of the serialized form succeeds; if serialization fails after the
clear step, `set` returns the serde error, `data` still equals its old
value, and the file has already been truncated to empty. -/
theorem C3_set_semantics (c : Codec T) (fl : Faults) (s : FileSync T)
    (v : T) :
    ((FileSync.set (P := P) c fl s v).2 = none →
      (FileSync.set (P := P) c fl s v).1.data = v) ∧
    (∀ e, (FileSync.set (P := P) c fl s v).2 = some e →
      (FileSync.set (P := P) c fl s v).1.data = s.data) ∧
    (fl.setLenFails = false → fl.seekFails = false →
      c.encode s.pretty v = Except.error () →
      FileSync.set (P := P) c fl s v =
        ({ s with file := ⟨[], 0⟩ }, some FileSyncError.SerdeJsonError)) := by
  rcases fl with ⟨sl, sk⟩
  unfold FileSync.set FileSync.clear_file
  cases sl
  · cases sk
    · rcases henc : c.encode s.pretty v with e | b
      · simp [FileSync.write, henc]
      · simp [FileSync.write, henc]
    · simp
  · simp

/-- Witness for C3: a successful concrete `set` stores the new value, and a
concrete `set` under the always-failing encoder keeps the old value while
leaving the file truncated to empty. -/
theorem C3_set_semantics_witness :
    (FileSync.set (P := Nat) natCodec ⟨false, false⟩
        ⟨5, ⟨[0, 5], 2⟩, false⟩ 7).1.data = 7 ∧
      FileSync.set (P := Nat) failCodec ⟨false, false⟩
          ⟨0, ⟨[], 0⟩, false⟩ 1 =
        (⟨0, ⟨[], 0⟩, false⟩, some FileSyncError.SerdeJsonError) := by
  constructor
  · exact (C3_set_semantics natCodec ⟨false, false⟩
      ⟨5, ⟨[0, 5], 2⟩, false⟩ 7).1 rfl
  · exact (C3_set_semantics failCodec ⟨false, false⟩
      ⟨0, ⟨[], 0⟩, false⟩ 1).2.2 rfl rfl rfl

/-- Claim C4: the mutator of `modify` runs before any file I/O and its
effect on memory is never rolled back, so whenever `modify(f)` returns an
error (clear step or serialization), the in-memory `data` nonetheless
already equals f applied to the previous value. -/
theorem C4_modify_error_keeps_mutation (c : Codec T) (fl : Faults)
    (s : FileSync T) (f : T → T) :
    (FileSync.modify (P := P) c fl s f).1.data = f s.data ∧
    (∀ e, (FileSync.modify (P := P) c fl s f).2 = some e →
      (FileSync.modify (P := P) c fl s f).1.data = f s.data) := by
  rcases fl with ⟨sl, sk⟩
  unfold FileSync.modify FileSync.clear_file
  cases sl
  · cases sk
    · rcases henc : c.encode s.pretty (f s.data) with e | b
      · simp [FileSync.write, henc]
      · simp [FileSync.write, henc]
    · simp
  · simp

/-- Witness for C4: under a failing truncate the concrete `modify` errors,
yet memory holds the successor of the old value. -/
theorem C4_modify_error_keeps_mutation_witness :
    (FileSync.modify (P := Nat) natCodec ⟨true, false⟩
        ⟨5, ⟨[0, 5], 2⟩, false⟩ Nat.succ).1.data = 6 :=
  (C4_modify_error_keeps_mutation natCodec ⟨true, false⟩
    ⟨5, ⟨[0, 5], 2⟩, false⟩ Nat.succ).2
    (FileSyncError.ClearFileError ClearFileError.SetLenError) rfl

/-- Claim C5: for every pure mutation function f and every object whose
`get()` returns v before the call, a successful `modify(f)` leaves `get()`
equal to f v; since this holds for every f, the embedding applies the
mutator exactly once per call. -/
theorem C5_modify_equivalence (c : Codec T) (fl : Faults) (s : FileSync T)
    (f : T → T) (s₂ : FileSync T)
    (h : FileSync.modify (P := P) c fl s f = (s₂, none)) :
    FileSync.get s₂ = f (FileSync.get s) :=
  (modify_ok_elim c fl s f s₂ h).2.2.choose_spec.2.1

/-- Witness for C5: a concrete successful `modify` with the successor
function turns a stored 5 into 6. -/
theorem C5_modify_equivalence_witness :
    FileSync.get (⟨6, ⟨[0, 6], 2⟩, false⟩ : FileSync Nat) =
      Nat.succ (FileSync.get (⟨5, ⟨[0, 5], 2⟩, false⟩ : FileSync Nat)) :=
  C5_modify_equivalence (P := Nat) natCodec ⟨false, false⟩
    ⟨5, ⟨[0, 5], 2⟩, false⟩ Nat.succ ⟨6, ⟨[0, 6], 2⟩, false⟩ (by decide)

end ClaimsTwo

section ClaimsThree

variable {T P : Type} [DecidableEq P]

/-- Claim C6: on a path that already exists, `new` always fails with the
`FileAlreadyExists` error carrying that path, and the filesystem is
returned untouched; the conclusion holds for either behavior of the open
step (`openF`), showing the existence check precedes any file opening. -/
theorem C6_new_existence_guard (c : Codec T) (openF : Bool) (fs : FS P)
    (fp : P) (v : T) (pr : Bool) (h : (fs fp).isSome = true) :
    FileSync.new c openF fs fp v pr =
      (Except.error (FileSyncError.FileAlreadyExists fp), fs) := by
  simp [FileSync.new, h]

/-- Witness for C6: `new` at the occupied path 0 fails with
`FileAlreadyExists 0` and leaves the one-file filesystem as it was. -/
theorem C6_new_existence_guard_witness :
    FileSync.new natCodec false
        (fun p => if p = 0 then some [0, 5] else none) 0 7 true =
      (Except.error (FileSyncError.FileAlreadyExists 0),
        fun p => if p = 0 then some [0, 5] else none) :=
  C6_new_existence_guard natCodec false
    (fun p => if p = 0 then some [0, 5] else none) 0 7 true rfl

/-- Claim C7: `load_or_new(path, value, pretty)` returns exactly the result
of `load(path, pretty)` when the path exists, and exactly the result of
`new(path, value, pretty)` when it does not. -/
theorem C7_load_or_new_dispatch (c : Codec T) (openF : Bool) (fs : FS P)
    (fp : P) (v : T) (pr : Bool) :
    ((fs fp).isSome = true →
      FileSync.load_or_new c openF fs fp v pr = FileSync.load c fs fp pr) ∧
    ((fs fp).isSome = false →
      FileSync.load_or_new c openF fs fp v pr =
        FileSync.new c openF fs fp v pr) := by
  constructor <;> intro h <;> simp [FileSync.load_or_new, h]

/-- Witness for C7: on a one-file filesystem, `load_or_new` at the occupied
path equals `load` there, and at a fresh path equals `new` there. -/
theorem C7_load_or_new_dispatch_witness :
    FileSync.load_or_new natCodec false
        (fun p => if p = 0 then some [0, 5] else none) 0 9 true =
      FileSync.load natCodec
        (fun p => if p = 0 then some [0, 5] else none) 0 true ∧
    FileSync.load_or_new natCodec false
        (fun p => if p = 0 then some [0, 5] else none) 1 9 true =
      FileSync.new natCodec false
        (fun p => if p = 0 then some [0, 5] else none) 1 9 true :=
  ⟨(C7_load_or_new_dispatch natCodec false
      (fun p => if p = 0 then some [0, 5] else none) 0 9 true).1 rfl,
    (C7_load_or_new_dispatch natCodec false
      (fun p => if p = 0 then some [0, 5] else none) 1 9 true).2 rfl⟩

/-- Claim C8: `clear_file` performs exactly two fallible operations in
order — truncate to length zero, then seek to the start — each failure
carrying its distinct tag; the seek is not attempted when the truncate
fails (the truncate-failure outcome is independent of the seek fault), and
a clear failure is surfaced through the public mutation error type by
`set` as `FileSyncError.ClearFileError`. -/
theorem C8_clear_file_semantics (fl : Faults) (f : FileState) :
    (fl.setLenFails = true →
      FileSync.clear_file fl f = (f, some ClearFileError.SetLenError)) ∧
    (fl.setLenFails = false → fl.seekFails = true →
      FileSync.clear_file fl f =
        (⟨[], f.cursor⟩, some ClearFileError.SeekError)) ∧
    (fl.setLenFails = false → fl.seekFails = false →
      FileSync.clear_file fl f = (⟨[], 0⟩, none)) ∧
    (∀ (c : Codec T) (s : FileSync T) (v : T) (e : ClearFileError),
      (FileSync.clear_file fl s.file).2 = some e →
      (FileSync.set (P := P) c fl s v).2 =
        some (FileSyncError.ClearFileError e)) := by
  rcases fl with ⟨sl, sk⟩
  refine ⟨?_, ?_, ?_, ?_⟩
  · intro h
    subst h
    simp [FileSync.clear_file]
  · intro h1 h2
    subst h1
    subst h2
    simp [FileSync.clear_file]
  · intro h1 h2
    subst h1
    subst h2
    simp [FileSync.clear_file]
  · intro c s v e h
    cases sl
    · cases sk
      · simp [FileSync.clear_file] at h
      · simp [FileSync.clear_file] at h
        simp [FileSync.set, FileSync.clear_file, ← h]
    · simp [FileSync.clear_file] at h
      simp [FileSync.set, FileSync.clear_file, ← h]

/-- Witness for C8: the three outcomes of `clear_file` at a concrete file
(truncate fault set with the seek fault also set, seek fault alone, no
fault), plus a concrete `set` surfacing the seek failure through the
public error type. -/
theorem C8_clear_file_semantics_witness :
    FileSync.clear_file ⟨true, true⟩ ⟨[3, 4], 2⟩ =
        (⟨[3, 4], 2⟩, some ClearFileError.SetLenError) ∧
      FileSync.clear_file ⟨false, true⟩ ⟨[3, 4], 2⟩ =
        (⟨[], 2⟩, some ClearFileError.SeekError) ∧
      FileSync.clear_file ⟨false, false⟩ ⟨[3, 4], 2⟩ = (⟨[], 0⟩, none) ∧
      (FileSync.set (P := Nat) natCodec ⟨false, true⟩
          ⟨5, ⟨[0, 5], 2⟩, false⟩ 7).2 =
        some (FileSyncError.ClearFileError ClearFileError.SeekError) :=
  ⟨(C8_clear_file_semantics (T := Nat) (P := Nat) ⟨true, true⟩
      ⟨[3, 4], 2⟩).1 rfl,
    (C8_clear_file_semantics (T := Nat) (P := Nat) ⟨false, true⟩
      ⟨[3, 4], 2⟩).2.1 rfl rfl,
    (C8_clear_file_semantics (T := Nat) (P := Nat) ⟨false, false⟩
      ⟨[3, 4], 2⟩).2.2.1 rfl rfl,
    (C8_clear_file_semantics ⟨false, true⟩ ⟨[0, 5], 2⟩).2.2.2 natCodec
      ⟨5, ⟨[0, 5], 2⟩, false⟩ 7 ClearFileError.SeekError rfl⟩

/-- Claim C9: the in-memory value produced by `load` does not depend on the
pretty argument — over any file content the two runs either fail with the
same error or succeed with equal `data` (pretty only selects the encoding
of future writes, which `load` never performs). -/
theorem C9_load_pretty_neutral (c : Codec T) (fs : FS P) (fp : P)
    (pr pr' : Bool) :
    Except.map FileSync.get (FileSync.load c fs fp pr).1 =
      Except.map FileSync.get (FileSync.load c fs fp pr').1 := by
  unfold FileSync.load
  rcases hfp : fs fp with _ | bytes
  · rfl
  · rcases hdec : c.decode bytes with _ | data <;>
      simp [hdec, Except.map, FileSync.get]

/-- Claim C10: the three read accessors agree — `deref` and `as_ref` return
exactly what `get` returns, namely the in-memory `data` field; all three
are pure functions of the object, performing no file I/O or mutation. -/
theorem C10_accessors_agree (s : FileSync T) :
    FileSync.deref s = FileSync.get s ∧
      FileSync.as_ref s = FileSync.get s ∧ FileSync.get s = s.data :=
  ⟨rfl, rfl, rfl⟩

end ClaimsThree
